import Mathlib

/-!
Shallow embedding of the live-auction engine of `src/app.py` (Flask app).

Modelling conventions:
* SQLAlchemy rows become Lean structures; the database session becomes an
  explicit `Store` value threaded through the request handlers.
* Monetary columns are `db.Float`; bids and base prices are modelled as exact
  integers (`Int`), since all claims are about exact control flow and exact
  sums, not rounding.  `base_price` and `highest_bid` are `nullable=False`
  with default `0`, so Python's `x or 0` / `float(x) if x else 0.0` guards
  are the identity on the modelled value.
* JSON request fields become `Option` fields; Python truthiness of a missing
  or zero field (`if not all([...])`, `if not auction_id`) is modelled as
  `none` or the value `0`.
* `jsonify` error responses become an `ApiError`; `socketio.emit` broadcasts
  become an explicit list of `Event`s returned by the handler.  A handler
  that fails returns `Except.error` and produces no store change and no
  event, matching the source, where every validation failure returns before
  any `db.session` mutation is committed.
* Static descriptive columns that no engine operation reads (photo, batch,
  position, timestamps, sponsor, ...) are omitted.
* `random.choice(available_players)` is modelled by an extra argument
  `k : Nat`, picking element `k % length` of the available list; every
  element can be chosen by some `k`, and the empty-list failure case is
  exactly `length = 0`.
-/

/-- Row of the `Player` table (`class Player`, src/app.py). -/
structure Player where
  id : Nat
  name : String
  base_price : Int
  deriving DecidableEq, Repr

/-- Row of the `Team` table (`class Team`, src/app.py). -/
structure Team where
  id : Nat
  name : String
  deriving DecidableEq, Repr

/-- Row of the `Auction` table (`class Auction`, src/app.py); `players` is the
`auction_players` many-to-many roster, kept as the list of member player ids. -/
structure Auction where
  id : Nat
  name : String
  min_bid : Int
  status : String
  is_live : Bool
  current_player_id : Option Nat
  highest_bid : Int
  highest_bid_team_id : Option Nat
  players : List Nat
  deriving DecidableEq, Repr

/-- Row of the `Bid` table (`class Bid`, src/app.py). -/
structure Bid where
  auction_id : Nat
  player_id : Nat
  team_id : Nat
  bid_amount : Int
  deriving DecidableEq, Repr

/-- The persistent store: the tables the engine reads and writes.  `bids` is
append-only, in insertion order. -/
structure Store where
  auctions : List Auction
  players : List Player
  teams : List Team
  bids : List Bid
  deriving DecidableEq, Repr

/-- Broadcast events (`socketio.emit(...)` calls in src/app.py), with the
payload fields the engine computes. -/
inductive Event where
  | auction_started (auction_id : Nat) (auction_name : String)
  | auction_closed (auction_id : Nat) (auction_name : String)
  | player_live (player_id : Nat) (player_name : String) (base_price : Int)
      (min_bid : Int) (current_bid : Int) (total_amount : Int)
  | new_bid (team_id : Nat) (team_name : String) (amount : Int)
      (cumulative_bid : Int) (base_price : Int) (total_amount : Int)
      (player_id : Nat) (player_name : String)
  | player_sold (player_id : Nat) (player_name : String) (team_id : Nat)
      (team_name : Option String) (sold_price : Int) (base_price : Int)
      (cumulative_bids : Int)
  deriving DecidableEq, Repr

/-- Error responses (`jsonify({'error': ...})` returns in src/app.py). -/
inductive ApiError where
  | auctionIdRequired        -- 'Auction ID is required'
  | playerIdRequired         -- 'Player ID is required'
  | auctionNotFound          -- 404 / 'Auction not found'
  | playerNotFound           -- 404 / 'Player not found'
  | teamNotFound             -- 404 (get_or_404 on Team)
  | playerNotInAuction       -- 'Player not in this auction'
  | noAvailablePlayers       -- 'No available players in this auction'
  | missingRequiredFields    -- 'Missing required fields'
  | auctionNotLive           -- 'Auction is not live'
  | playerMismatch           -- 'This player is not currently being auctioned'
  | noBidPlaced              -- 'No bid placed yet'
  deriving DecidableEq, Repr

/-- `Auction.query.get(auction_id)`: primary-key lookup. -/
def findAuction (s : Store) (aid : Nat) : Option Auction :=
  s.auctions.find? (fun a => a.id == aid)

/-- `Player.query.get(player_id)`: primary-key lookup. -/
def findPlayer (s : Store) (pid : Nat) : Option Player :=
  s.players.find? (fun p => p.id == pid)

/-- `Team.query.get(team_id)`: primary-key lookup. -/
def findTeam (s : Store) (tid : Nat) : Option Team :=
  s.teams.find? (fun t => t.id == tid)

/-- `db.session.commit()` after mutating a loaded auction row: the row with
the same primary key is replaced. -/
def updateAuction (s : Store) (a : Auction) : Store :=
  { s with auctions := s.auctions.map (fun x => if x.id == a.id then a else x) }

/-- The result of a successful request handler: the committed store and the
broadcasts it emitted, in order. -/
abbrev OpResult := Store × List Event

/-- JSON body of `POST /admin/auction/place-bid`. -/
structure BidRequest where
  auction_id : Option Nat
  player_id : Option Nat
  team_id : Option Nat
  bid_amount : Option Int
  deriving DecidableEq, Repr

/-- JSON body of `POST /admin/auction/select-player`. -/
structure SelectRequest where
  auction_id : Option Nat
  player_id : Option Nat
  is_random : Bool
  deriving DecidableEq, Repr

/-- JSON body of `POST /admin/auction/sell-player`. -/
structure SellRequest where
  auction_id : Option Nat
  player_id : Option Nat
  deriving DecidableEq, Repr

/-- `place_bid` (src/app.py, `POST /admin/auction/place-bid`): field
presence/truthiness check (`if not all([...])`), `get_or_404` lookups for
auction, team, player in that order, liveness check, current-player check;
then appends a `Bid` row, adds the amount to the cumulative `highest_bid`,
records the bidding team as `highest_bid_team_id`, commits, and broadcasts
`new_bid`. -/
def place_bid (s : Store) (req : BidRequest) : Except ApiError OpResult :=
  match req.auction_id, req.player_id, req.team_id, req.bid_amount with
  | some aid, some pid, some tid, some amt =>
    if aid = 0 ∨ pid = 0 ∨ tid = 0 ∨ amt = 0 then
      Except.error ApiError.missingRequiredFields
    else
      match findAuction s aid with
      | none => Except.error ApiError.auctionNotFound
      | some auction =>
        match findTeam s tid with
        | none => Except.error ApiError.teamNotFound
        | some team =>
          match findPlayer s pid with
          | none => Except.error ApiError.playerNotFound
          | some player =>
            if ¬auction.is_live ∨ auction.status ≠ "live" then
              Except.error ApiError.auctionNotLive
            else if auction.current_player_id ≠ some pid then
              Except.error ApiError.playerMismatch
            else
              let auction2 := { auction with
                highest_bid := auction.highest_bid + amt,
                highest_bid_team_id := some tid }
              let s2 := updateAuction
                { s with bids := s.bids ++ [⟨aid, pid, tid, amt⟩] } auction2
              Except.ok (s2,
                [Event.new_bid tid team.name amt auction2.highest_bid
                  player.base_price (player.base_price + auction2.highest_bid)
                  pid player.name])
  | _, _, _, _ => Except.error ApiError.missingRequiredFields

/-- The player-choice part of `select_player` (src/app.py): either a random
pick from the roster (`random.choice`, modelled by index `k`) or an explicit
player id with existence and roster-membership checks. -/
def pick_player (s : Store) (auction : Auction) (req : SelectRequest)
    (k : Nat) : Except ApiError Player :=
  if req.is_random then
    let avail := s.players.filter (fun p => auction.players.contains p.id)
    match avail.get? (k % avail.length) with
    | none => Except.error ApiError.noAvailablePlayers
    | some p => Except.ok p
  else
    match req.player_id with
    | none => Except.error ApiError.playerIdRequired
    | some pid =>
      if pid = 0 then Except.error ApiError.playerIdRequired
      else
        match findPlayer s pid with
        | none => Except.error ApiError.playerNotFound
        | some p =>
          if auction.players.contains p.id then Except.ok p
          else Except.error ApiError.playerNotInAuction

/-- `select_player` (src/app.py, `POST /admin/auction/select-player`):
auction-id truthiness check, auction lookup, then the player choice
(`pick_player`).  On success it sets `current_player_id`, resets
`highest_bid` to `0`, clears `highest_bid_team_id`, commits, and broadcasts
`player_live`.  Note: the handler never consults `auction.status` or
`auction.is_live`. -/
def select_player (s : Store) (req : SelectRequest) (k : Nat) :
    Except ApiError OpResult :=
  match req.auction_id with
  | none => Except.error ApiError.auctionIdRequired
  | some aid =>
    if aid = 0 then Except.error ApiError.auctionIdRequired
    else
      match findAuction s aid with
      | none => Except.error ApiError.auctionNotFound
      | some auction =>
        match pick_player s auction req k with
        | Except.error e => Except.error e
        | Except.ok player =>
          let auction2 := { auction with
            current_player_id := some player.id,
            highest_bid := 0,
            highest_bid_team_id := none }
          Except.ok (updateAuction s auction2,
            [Event.player_live player.id player.name player.base_price
              auction.min_bid 0 player.base_price])

/-- `sell_player` (src/app.py, `POST /admin/auction/sell-player`):
`get_or_404` lookups for auction and player, then the `if not
auction.highest_bid_team_id` guard (Python falsiness: `None` or `0`).  On
success it captures `final_price = base_price + highest_bid`, clears the
round state (`current_player_id`, `highest_bid`, `highest_bid_team_id`),
commits, and broadcasts `player_sold`.  Note: the handler checks neither the
auction status nor whether the given player is the current player. -/
def sell_player (s : Store) (req : SellRequest) : Except ApiError OpResult :=
  match req.auction_id with
  | none => Except.error ApiError.auctionNotFound
  | some aid =>
    match findAuction s aid with
    | none => Except.error ApiError.auctionNotFound
    | some auction =>
      match req.player_id with
      | none => Except.error ApiError.playerNotFound
      | some pid =>
        match findPlayer s pid with
        | none => Except.error ApiError.playerNotFound
        | some player =>
          match auction.highest_bid_team_id with
          | none => Except.error ApiError.noBidPlaced
          | some sold_team_id =>
            if sold_team_id = 0 then Except.error ApiError.noBidPlaced
            else
              let final_price := player.base_price + auction.highest_bid
              let auction2 := { auction with
                current_player_id := none,
                highest_bid := 0,
                highest_bid_team_id := none }
              Except.ok (updateAuction s auction2,
                [Event.player_sold player.id player.name sold_team_id
                  ((findTeam s sold_team_id).map Team.name) final_price
                  player.base_price auction.highest_bid])

/-- `close_auction` (src/app.py, `POST /admin/auction/close/<auction_id>`):
unconditionally sets `status = 'closed'`, `is_live = False`, commits, and
broadcasts `auction_closed`.  There is no already-closed check. -/
def close_auction (s : Store) (aid : Nat) : Except ApiError OpResult :=
  match findAuction s aid with
  | none => Except.error ApiError.auctionNotFound
  | some auction =>
    let auction2 := { auction with status := "closed", is_live := false }
    Except.ok (updateAuction s auction2,
      [Event.auction_closed auction.id auction.name])

/-- `go_live_auction` (src/app.py, `POST /admin/auction/go-live/<auction_id>`):
unconditionally sets `status = 'live'`, `is_live = True`, clears the round
state, commits, and broadcasts `auction_started`.  There is no check of the
previous status. -/
def go_live_auction (s : Store) (aid : Nat) : Except ApiError OpResult :=
  match findAuction s aid with
  | none => Except.error ApiError.auctionNotFound
  | some auction =>
    let auction2 := { auction with
      status := "live",
      is_live := true,
      current_player_id := none,
      highest_bid := 0,
      highest_bid_team_id := none }
    Except.ok (updateAuction s auction2,
      [Event.auction_started auction.id auction.name])

/-- The store after a `place_bid` request: the committed store on success,
the unchanged store on any error (the source rolls back / returns before
committing on every failure path). -/
def applyBid (s : Store) (req : BidRequest) : Store :=
  match place_bid s req with
  | Except.ok r => r.1
  | Except.error _ => s

/-- A sequence of `place_bid` requests, processed one after the other. -/
def runBids (s : Store) (reqs : List BidRequest) : Store :=
  reqs.foldl applyBid s

/-- One Control API invocation. -/
inductive Op where
  | goLive (aid : Nat)
  | close (aid : Nat)
  | selectPlayer (req : SelectRequest) (k : Nat)
  | placeBid (req : BidRequest)
  | sellPlayer (req : SellRequest)
  deriving DecidableEq, Repr

/-- The store after one Control API invocation (errors leave it unchanged). -/
def runOp (s : Store) (op : Op) : Store :=
  match op with
  | Op.goLive aid =>
    match go_live_auction s aid with
    | Except.ok r => r.1
    | Except.error _ => s
  | Op.close aid =>
    match close_auction s aid with
    | Except.ok r => r.1
    | Except.error _ => s
  | Op.selectPlayer req k =>
    match select_player s req k with
    | Except.ok r => r.1
    | Except.error _ => s
  | Op.placeBid req => applyBid s req
  | Op.sellPlayer req =>
    match sell_player s req with
    | Except.ok r => r.1
    | Except.error _ => s

/-- The store after a sequence of Control API invocations. -/
def runOps (s : Store) (ops : List Op) : Store :=
  ops.foldl runOp s

/-- Status of the auction with the given id, when it exists. -/
def auctionStatus (s : Store) (aid : Nat) : Option String :=
  (findAuction s aid).map Auction.status

/-- The recorded `Bid` rows for one (auction, player) pair, in insertion
order (`Bid.query.filter_by(auction_id=..., player_id=...)`). -/
def bidsFor (l : List Bid) (aid pid : Nat) : List Bid :=
  l.filter (fun b => b.auction_id == aid && b.player_id == pid)

/-- Sum of the amounts of a list of bid rows. -/
def sumAmounts : List Bid → Int
  | [] => 0
  | b :: rest => b.bid_amount + sumAmounts rest

/-!
Concurrency model for `place_bid`.  In the source, each request handler loads
the `Auction` row into its own database session at the start of the request
and commits at the end; the read of `auction.highest_bid` in
`auction.highest_bid = (auction.highest_bid or 0) + float(bid_amount)`
therefore observes the state as of the load, while the commit overwrites the
row afterwards.  `place_bid_at sr sw req` runs the handler with all reads
(row lookups, validation, the observed cumulative bid) against snapshot `sr`
while the commit applies to the then-current store `sw`.  A serialized
execution is `place_bid_at s s`, which coincides with `place_bid s`; an
interleaving in which both requests load before either commits is
`place_bid_at s` applied twice with the same read snapshot `s`.
-/

/-- `place_bid` with the read snapshot separated from the commit target (see
the comment above). -/
def place_bid_at (sr sw : Store) (req : BidRequest) : Except ApiError OpResult :=
  match req.auction_id, req.player_id, req.team_id, req.bid_amount with
  | some aid, some pid, some tid, some amt =>
    if aid = 0 ∨ pid = 0 ∨ tid = 0 ∨ amt = 0 then
      Except.error ApiError.missingRequiredFields
    else
      match findAuction sr aid with
      | none => Except.error ApiError.auctionNotFound
      | some auction =>
        match findTeam sr tid with
        | none => Except.error ApiError.teamNotFound
        | some team =>
          match findPlayer sr pid with
          | none => Except.error ApiError.playerNotFound
          | some player =>
            if ¬auction.is_live ∨ auction.status ≠ "live" then
              Except.error ApiError.auctionNotLive
            else if auction.current_player_id ≠ some pid then
              Except.error ApiError.playerMismatch
            else
              let auction2 := { auction with
                highest_bid := auction.highest_bid + amt,
                highest_bid_team_id := some tid }
              let s2 := updateAuction
                { sw with bids := sw.bids ++ [⟨aid, pid, tid, amt⟩] } auction2
              Except.ok (s2,
                [Event.new_bid tid team.name amt auction2.highest_bid
                  player.base_price (player.base_price + auction2.highest_bid)
                  pid player.name])
  | _, _, _, _ => Except.error ApiError.missingRequiredFields

/-- The committed store of `place_bid_at` (unchanged target on error). -/
def applyBidAt (sr sw : Store) (req : BidRequest) : Store :=
  match place_bid_at sr sw req with
  | Except.ok r => r.1
  | Except.error _ => sw

/-- With read snapshot and commit target identified, the two-state handler is
literally the sequential one. -/
theorem place_bid_at_self (s : Store) (req : BidRequest) :
    place_bid_at s s req = place_bid s req := rfl

/-! Basic store lemmas. -/

/-- A found auction carries the looked-up primary key. -/
theorem findAuction_some_id {s : Store} {aid : Nat} {a : Auction}
    (h : findAuction s aid = some a) : a.id = aid := by
  have := List.find?_some h
  simpa using this

/-- Primary-key lookup after replacing the row with key `a.id`. -/
theorem findAuction_updateAuction (s : Store) (a : Auction) (aid : Nat) :
    findAuction (updateAuction s a) aid
      = (findAuction s aid).map (fun x => if x.id == a.id then a else x) := by
  show List.find? _ (s.auctions.map _) = _
  rw [List.find?_map]
  congr 2
  funext x
  by_cases h : x.id = a.id
  · simp [h]
  · simp [h]

/-- Replacing the row that was found yields the replacement. -/
theorem findAuction_update_self {s : Store} {aid : Nat} {x : Auction}
    (a : Auction) (hx : findAuction s aid = some x) (hid : a.id = x.id) :
    findAuction (updateAuction s a) aid = some a := by
  rw [findAuction_updateAuction, hx]
  simp [hid]

/-- Replacing a row with a different primary key leaves the lookup unchanged. -/
theorem findAuction_update_other {s : Store} {aid : Nat} (a : Auction)
    (hne : a.id ≠ aid) :
    findAuction (updateAuction s a) aid = findAuction s aid := by
  rw [findAuction_updateAuction]
  cases hx : findAuction s aid with
  | none => rfl
  | some x =>
    have hxid : x.id = aid := findAuction_some_id hx
    have hcond : ¬((x.id == a.id) = true) := by
      simp only [beq_iff_eq, hxid]
      exact fun h => hne h.symm
    show some (if x.id == a.id then a else x) = some x
    rw [if_neg hcond]

/-- `updateAuction` touches only the auctions table. -/
theorem updateAuction_bids (s : Store) (a : Auction) :
    (updateAuction s a).bids = s.bids := rfl

theorem sumAmounts_append (l₁ l₂ : List Bid) :
    sumAmounts (l₁ ++ l₂) = sumAmounts l₁ + sumAmounts l₂ := by
  induction l₁ with
  | nil => simp [sumAmounts]
  | cons b l ih => simp [sumAmounts, ih]; ring

theorem bidsFor_append (l₁ l₂ : List Bid) (aid pid : Nat) :
    bidsFor (l₁ ++ l₂) aid pid = bidsFor l₁ aid pid ++ bidsFor l₂ aid pid := by
  simp [bidsFor]

/-! Inversion and construction lemmas for the request handlers. -/

/-- Inversion of a successful `place_bid`: the request fields, the checks
that passed, and the exact committed store and broadcast. -/
theorem place_bid_ok_inv {s : Store} {req : BidRequest} {s2 : Store}
    {evs : List Event} (h : place_bid s req = Except.ok (s2, evs)) :
    ∃ aid pid tid amt auction team player,
      req = ⟨some aid, some pid, some tid, some amt⟩ ∧
      ¬(aid = 0 ∨ pid = 0 ∨ tid = 0 ∨ amt = 0) ∧
      findAuction s aid = some auction ∧
      findTeam s tid = some team ∧
      findPlayer s pid = some player ∧
      auction.is_live = true ∧ auction.status = "live" ∧
      auction.current_player_id = some pid ∧
      s2 = updateAuction { s with bids := s.bids ++ [⟨aid, pid, tid, amt⟩] }
             { auction with highest_bid := auction.highest_bid + amt,
                            highest_bid_team_id := some tid } ∧
      evs = [Event.new_bid tid team.name amt (auction.highest_bid + amt)
               player.base_price (player.base_price + (auction.highest_bid + amt))
               pid player.name] := by
  obtain ⟨oa, opid, otid, oamt⟩ := req
  cases oa with
  | none => exact absurd h (by simp [place_bid])
  | some aid =>
  cases opid with
  | none => exact absurd h (by simp [place_bid])
  | some pid =>
  cases otid with
  | none => exact absurd h (by simp [place_bid])
  | some tid =>
  cases oamt with
  | none => exact absurd h (by simp [place_bid])
  | some amt =>
  by_cases hz : aid = 0 ∨ pid = 0 ∨ tid = 0 ∨ amt = 0
  · exact absurd h (by simp [place_bid, hz])
  · simp only [place_bid, if_neg hz] at h
    cases hfa : findAuction s aid with
    | none => rw [hfa] at h; exact Except.noConfusion h
    | some auction =>
    simp only [hfa] at h
    cases hft : findTeam s tid with
    | none => rw [hft] at h; exact Except.noConfusion h
    | some team =>
    simp only [hft] at h
    cases hfp : findPlayer s pid with
    | none => rw [hfp] at h; exact Except.noConfusion h
    | some player =>
    simp only [hfp] at h
    by_cases hlv : ¬auction.is_live ∨ auction.status ≠ "live"
    · rw [if_pos hlv] at h; exact Except.noConfusion h
    · simp only [if_neg hlv] at h
      by_cases hcp : auction.current_player_id ≠ some pid
      · rw [if_pos hcp] at h; exact Except.noConfusion h
      · simp only [if_neg hcp] at h
        push_neg at hlv hcp
        obtain ⟨hl1, hl2⟩ := hlv
        simp only [Except.ok.injEq, Prod.mk.injEq] at h
        obtain ⟨hs2, hevs⟩ := h
        exact ⟨aid, pid, tid, amt, auction, team, player, rfl, hz, hfa, hft,
          hfp, hl1, hl2, hcp, hs2.symm, hevs.symm⟩

/-- A `place_bid` request that passes every check commits exactly the new
`Bid` row, the incremented cumulative `highest_bid`, and the new leader, and
broadcasts `new_bid`. -/
theorem place_bid_ok_eq {s : Store} {aid pid tid : Nat} {amt : Int}
    {auction : Auction} {team : Team} {player : Player}
    (hz : ¬(aid = 0 ∨ pid = 0 ∨ tid = 0 ∨ amt = 0))
    (hfa : findAuction s aid = some auction)
    (hft : findTeam s tid = some team)
    (hfp : findPlayer s pid = some player)
    (hlive : auction.is_live = true) (hst : auction.status = "live")
    (hcp : auction.current_player_id = some pid) :
    place_bid s ⟨some aid, some pid, some tid, some amt⟩ =
      Except.ok
        (updateAuction { s with bids := s.bids ++ [⟨aid, pid, tid, amt⟩] }
          { auction with highest_bid := auction.highest_bid + amt,
                         highest_bid_team_id := some tid },
        [Event.new_bid tid team.name amt (auction.highest_bid + amt)
           player.base_price (player.base_price + (auction.highest_bid + amt))
           pid player.name]) := by
  have hlv : ¬(¬auction.is_live ∨ auction.status ≠ "live") := by
    push_neg
    exact ⟨hlive, hst⟩
  have hcp2 : ¬(auction.current_player_id ≠ some pid) := by
    simp [hcp]
  simp only [place_bid, if_neg hz, hfa, hft, hfp, if_neg hlv, if_neg hcp2]

/-- Inversion of a successful `select_player`: the auction that was found
and the committed reset of the round state. -/
theorem select_player_ok_inv {s : Store} {req : SelectRequest} {k : Nat}
    {s2 : Store} {evs : List Event}
    (h : select_player s req k = Except.ok (s2, evs)) :
    ∃ aid auction player,
      req.auction_id = some aid ∧ ¬aid = 0 ∧
      findAuction s aid = some auction ∧
      pick_player s auction req k = Except.ok player ∧
      s2 = updateAuction s { auction with
        current_player_id := some player.id,
        highest_bid := 0,
        highest_bid_team_id := none } ∧
      evs = [Event.player_live player.id player.name player.base_price
        auction.min_bid 0 player.base_price] := by
  cases hra : req.auction_id with
  | none => rw [select_player, hra] at h; exact Except.noConfusion h
  | some aid =>
  simp only [select_player, hra] at h
  by_cases hz : aid = 0
  · rw [if_pos hz] at h; exact Except.noConfusion h
  · rw [if_neg hz] at h
    cases hfa : findAuction s aid with
    | none => rw [hfa] at h; exact Except.noConfusion h
    | some auction =>
    simp only [hfa] at h
    cases hpk : pick_player s auction req k with
    | error e => rw [hpk] at h; exact Except.noConfusion h
    | ok player =>
    simp only [hpk] at h
    simp only [Except.ok.injEq, Prod.mk.injEq] at h
    obtain ⟨hs2, hevs⟩ := h
    exact ⟨aid, auction, player, rfl, hz, hfa, hpk, hs2.symm, hevs.symm⟩

/-- A `select_player` request naming an existing player on an existing
auction roster commits exactly the round reset and broadcasts `player_live`
(whatever `auction.status` is). -/
theorem select_player_ok_eq {s : Store} {aid pid : Nat}
    {auction : Auction} {player : Player}
    (hz : ¬aid = 0) (hpz : ¬pid = 0)
    (hfa : findAuction s aid = some auction)
    (hfp : findPlayer s pid = some player)
    (hmem : auction.players.contains player.id = true) :
    select_player s ⟨some aid, some pid, false⟩ k =
      Except.ok (updateAuction s { auction with
          current_player_id := some player.id,
          highest_bid := 0,
          highest_bid_team_id := none },
        [Event.player_live player.id player.name player.base_price
          auction.min_bid 0 player.base_price]) := by
  simp only [select_player, if_neg hz, hfa, pick_player, Bool.false_eq_true,
    if_false, if_neg hpz, hfp, hmem, if_true]

/-- Inversion of a successful `sell_player`: a leader was set, and the
committed store clears the round state while the broadcast reports
`base_price + highest_bid` as the sold price. -/
theorem sell_player_ok_inv {s : Store} {req : SellRequest} {s2 : Store}
    {evs : List Event} (h : sell_player s req = Except.ok (s2, evs)) :
    ∃ aid pid auction player sold_team_id,
      req.auction_id = some aid ∧ req.player_id = some pid ∧
      findAuction s aid = some auction ∧
      findPlayer s pid = some player ∧
      auction.highest_bid_team_id = some sold_team_id ∧ ¬sold_team_id = 0 ∧
      s2 = updateAuction s { auction with
        current_player_id := none,
        highest_bid := 0,
        highest_bid_team_id := none } ∧
      evs = [Event.player_sold player.id player.name sold_team_id
        ((findTeam s sold_team_id).map Team.name)
        (player.base_price + auction.highest_bid) player.base_price
        auction.highest_bid] := by
  cases hra : req.auction_id with
  | none => rw [sell_player, hra] at h; exact Except.noConfusion h
  | some aid =>
  simp only [sell_player, hra] at h
  cases hfa : findAuction s aid with
  | none => rw [hfa] at h; exact Except.noConfusion h
  | some auction =>
  simp only [hfa] at h
  cases hrp : req.player_id with
  | none => rw [hrp] at h; exact Except.noConfusion h
  | some pid =>
  simp only [hrp] at h
  cases hfp : findPlayer s pid with
  | none => rw [hfp] at h; exact Except.noConfusion h
  | some player =>
  simp only [hfp] at h
  cases hbt : auction.highest_bid_team_id with
  | none => rw [hbt] at h; exact Except.noConfusion h
  | some sold_team_id =>
  simp only [hbt] at h
  by_cases hz : sold_team_id = 0
  · rw [if_pos hz] at h; exact Except.noConfusion h
  · rw [if_neg hz] at h
    simp only [Except.ok.injEq, Prod.mk.injEq] at h
    obtain ⟨hs2, hevs⟩ := h
    exact ⟨aid, pid, auction, player, sold_team_id, rfl, rfl, hfa, hfp, hbt,
      hz, hs2.symm, hevs.symm⟩

/-- A `sell_player` request on an existing auction with a (nonzero) leader
and an existing player commits exactly the round-state reset and broadcasts
`player_sold` with final price `base_price + highest_bid` — whatever the
auction status and whether or not the player is the current one. -/
theorem sell_player_ok_eq {s : Store} {aid pid sold_team_id : Nat}
    {auction : Auction} {player : Player}
    (hfa : findAuction s aid = some auction)
    (hfp : findPlayer s pid = some player)
    (hbt : auction.highest_bid_team_id = some sold_team_id)
    (hz : ¬sold_team_id = 0) :
    sell_player s ⟨some aid, some pid⟩ =
      Except.ok (updateAuction s { auction with
          current_player_id := none,
          highest_bid := 0,
          highest_bid_team_id := none },
        [Event.player_sold player.id player.name sold_team_id
          ((findTeam s sold_team_id).map Team.name)
          (player.base_price + auction.highest_bid) player.base_price
          auction.highest_bid]) := by
  simp only [sell_player, hfa, hfp, hbt, if_neg hz]

/-! The open-round invariant behind the cumulative-bid consistency claim. -/

/-- Invariant of an open bidding round that began when the `bids` table had
`n` rows: the auction exists, the round is open on `pid`, and the cached
cumulative `highest_bid` equals the sum of the `Bid` rows for the
(auction, player) pair appended since the round opened. -/
def RoundInv (n aid pid : Nat) (s : Store) : Prop :=
  n ≤ s.bids.length ∧
  ∃ a, findAuction s aid = some a ∧ a.current_player_id = some pid ∧
    a.highest_bid = sumAmounts (bidsFor (s.bids.drop n) aid pid)

/-- One `place_bid` request — successful or not, on this auction or another —
preserves the open-round invariant. -/
theorem roundInv_applyBid (n aid pid : Nat) (s : Store) (r : BidRequest)
    (h : RoundInv n aid pid s) : RoundInv n aid pid (applyBid s r) := by
  obtain ⟨hn, a, hfa, hcp, hsum⟩ := h
  cases hpb : place_bid s r with
  | error e =>
    have : applyBid s r = s := by simp [applyBid, hpb]
    rw [this]
    exact ⟨hn, a, hfa, hcp, hsum⟩
  | ok res =>
    obtain ⟨s2, evs⟩ := res
    have happ : applyBid s r = s2 := by simp [applyBid, hpb]
    rw [happ]
    obtain ⟨raid, rpid, rtid, ramt, auction, team, player, hreq, hz, hfa2,
      hft2, hfp2, hlv, hst, hcp2, hs2, hevs⟩ := place_bid_ok_inv hpb
    subst hs2
    have hb_bids :
        (updateAuction { s with bids := s.bids ++ [⟨raid, rpid, rtid, ramt⟩] }
          { auction with highest_bid := auction.highest_bid + ramt,
                         highest_bid_team_id := some rtid }).bids
        = s.bids ++ [⟨raid, rpid, rtid, ramt⟩] := rfl
    refine ⟨?_, ?_⟩
    · rw [hb_bids]
      simp only [List.length_append, List.length_cons, List.length_nil]
      omega
    · by_cases haid : raid = aid
      · subst haid
        have haa : auction = a := by
          rw [hfa] at hfa2
          exact (Option.some.inj hfa2).symm
        subst haa
        have hpp : rpid = pid := by
          rw [hcp] at hcp2
          exact (Option.some.inj hcp2.symm)
        subst hpp
        refine ⟨{ auction with highest_bid := auction.highest_bid + ramt, highest_bid_team_id := some rtid }, ?_, ?_, ?_⟩
        · exact findAuction_update_self _ hfa rfl
        · exact hcp
        · rw [hb_bids, List.drop_append_of_le_length hn, bidsFor_append,
            sumAmounts_append, ← hsum]
          have hone : bidsFor [⟨raid, rpid, rtid, ramt⟩] raid rpid
              = [⟨raid, rpid, rtid, ramt⟩] := by
            simp [bidsFor]
          rw [hone]
          simp [sumAmounts]
      · have hid2 : ({ auction with highest_bid := auction.highest_bid + ramt, highest_bid_team_id := some rtid } : Auction).id = raid := by
          show auction.id = raid
          exact findAuction_some_id hfa2
        refine ⟨a, ?_, hcp, ?_⟩
        · rw [findAuction_update_other _ (by rw [hid2]; exact haid)]
          exact hfa
        · rw [hb_bids, List.drop_append_of_le_length hn, bidsFor_append,
            sumAmounts_append]
          have hnone : bidsFor [⟨raid, rpid, rtid, ramt⟩] aid pid = [] := by
            simp only [bidsFor, List.filter]
            have : (raid == aid) = false := by
              simp [haid]
            simp [this]
          rw [hnone]
          simp [sumAmounts, hsum]

/-- A whole sequence of `place_bid` requests preserves the open-round
invariant. -/
theorem roundInv_runBids (n aid pid : Nat) (s : Store)
    (reqs : List BidRequest) (h : RoundInv n aid pid s) :
    RoundInv n aid pid (runBids s reqs) := by
  induction reqs generalizing s with
  | nil => exact h
  | cons r rest ih => exact ih _ (roundInv_applyBid n aid pid s r h)

/-- A successful `select_player` establishes the open-round invariant for the
ledger length at the moment the round opens, with an unchanged `bids` table. -/
theorem roundInv_of_select {s : Store} {req : SelectRequest} {k : Nat}
    {s1 : Store} {evs : List Event} {aid : Nat}
    (hsel : select_player s req k = Except.ok (s1, evs))
    (haid : req.auction_id = some aid) :
    s1.bids = s.bids ∧
    ∃ pid, RoundInv s1.bids.length aid pid s1 := by
  obtain ⟨aid2, auction, player, haid2, hz2, hfa2, hpk2, hs1, hevs⟩ :=
    select_player_ok_inv hsel
  have : aid2 = aid := Option.some.inj (haid2.symm.trans haid)
  subst this
  subst hs1
  refine ⟨rfl, player.id, Nat.le_refl _, { auction with current_player_id := some player.id, highest_bid := 0, highest_bid_team_id := none }, ?_, rfl, ?_⟩
  · exact findAuction_update_self _ hfa2 rfl
  · simp [List.drop_length, bidsFor, sumAmounts]

/-- Replacing a row with one of equal status leaves every status lookup
unchanged. -/
theorem auctionStatus_updateAuction_eq (s : Store) (a2 : Auction) (aid : Nat)
    (h : ∀ x, findAuction s aid = some x → x.id = a2.id → x.status = a2.status) :
    auctionStatus (updateAuction s a2) aid = auctionStatus s aid := by
  unfold auctionStatus
  rw [findAuction_updateAuction]
  cases hx : findAuction s aid with
  | none => rfl
  | some x =>
    show some (if x.id == a2.id then a2 else x).status = some x.status
    cases hbe : (x.id == a2.id) with
    | false => rw [if_neg (by simp)]
    | true =>
      rw [if_pos rfl]
      rw [h x hx (by simpa using hbe)]

/-! Concrete fixtures shared by counterexamples and witnesses. -/

def exPlayerA : Player := ⟨7, "Alice", 1000⟩

def exPlayerB : Player := ⟨8, "Bob", 500⟩

def exTeamA : Team := ⟨3, "TeamA"⟩

def exTeamB : Team := ⟨4, "TeamB"⟩

/-- A live auction with an empty round and roster {7, 8}. -/
def exLiveAuction : Auction := ⟨1, "Season", 10, "live", true, none, 0, none, [7, 8]⟩

def exLiveStore : Store := ⟨[exLiveAuction], [exPlayerA, exPlayerB], [exTeamA, exTeamB], []⟩

/-- The same auction still in draft. -/
def exDraftStore : Store :=
  ⟨[{ exLiveAuction with status := "draft", is_live := false }], [exPlayerA, exPlayerB], [exTeamA, exTeamB], []⟩

/-- The same auction already closed. -/
def exClosedStore : Store :=
  ⟨[{ exLiveAuction with status := "closed", is_live := false }], [exPlayerA, exPlayerB], [exTeamA, exTeamB], []⟩

/-- The live auction with an open round on player 7 and no bids yet. -/
def exRoundStore : Store :=
  ⟨[{ exLiveAuction with current_player_id := some 7 }], [exPlayerA, exPlayerB], [exTeamA, exTeamB], []⟩

/-- The live auction with an open round on player 7, cumulative 200, leader
team 3. -/
def exBidAuction : Auction :=
  { exLiveAuction with current_player_id := some 7, highest_bid := 200, highest_bid_team_id := some 3 }

/-- Store for `exBidAuction`, with its one recorded bid of 200 by team 3. -/
def exBidStore : Store :=
  ⟨[exBidAuction], [exPlayerA, exPlayerB], [exTeamA, exTeamB], [⟨1, 7, 3, 200⟩]⟩

/-- A closed auction that still has an open round on player 7 with
cumulative 200 and leader team 3 (reachable because `close_auction` does not
clear the round state). -/
def exClosedLeadAuction : Auction :=
  { exLiveAuction with status := "closed", is_live := false, current_player_id := some 7, highest_bid := 200, highest_bid_team_id := some 3 }

/-- Store for `exClosedLeadAuction`. -/
def exClosedLeadStore : Store :=
  ⟨[exClosedLeadAuction], [exPlayerA, exPlayerB], [exTeamA, exTeamB], [⟨1, 7, 3, 200⟩]⟩

/-- Claim C1 (amended): during a round opened by a successful
`select_player`, after any sequence of `place_bid` calls the cached
cumulative `highest_bid` equals the sum of the `Bid` records for the
(auction, current player) pair that were appended during this round, i.e.
since the ledger length at the moment the round opened; `select_player`
itself appends nothing.  The sum over all stored records for the pair can
differ, since records of earlier rounds of the same player persist. -/
theorem c1_cumulative_eq_round_bid_sum
    (s : Store) (req : SelectRequest) (k : Nat) (s1 : Store)
    (evs : List Event) (aid pid : Nat) (a1 : Auction)
    (reqs : List BidRequest)
    (hsel : select_player s req k = Except.ok (s1, evs))
    (haid : req.auction_id = some aid)
    (ha1 : findAuction s1 aid = some a1)
    (hpid : a1.current_player_id = some pid) :
    s1.bids = s.bids ∧
    ∃ a2, findAuction (runBids s1 reqs) aid = some a2 ∧
      a2.current_player_id = some pid ∧
      a2.highest_bid
        = sumAmounts (bidsFor ((runBids s1 reqs).bids.drop s1.bids.length) aid pid) := by
  obtain ⟨hbids, pid2, hinv⟩ := roundInv_of_select hsel haid
  refine ⟨hbids, ?_⟩
  have hpid2 : pid2 = pid := by
    obtain ⟨hn, a, hfa, hcp, hsum⟩ := hinv
    have haa : a = a1 := Option.some.inj (hfa.symm.trans ha1)
    subst haa
    exact Option.some.inj (hcp.symm.trans hpid)
  subst hpid2
  obtain ⟨hn2, a2, hfa2, hcp2, hsum2⟩ :=
    roundInv_runBids s1.bids.length aid pid2 s1 reqs hinv
  exact ⟨a2, hfa2, hcp2, hsum2⟩

/-- Claim C1, the claim as frozen is false on the code: re-select player 7
after an earlier round recorded a 100 bid for the pair (auction 1, player
7); the next `place_bid` of 50 in the newly opened round leaves the cached
cumulative at 50, while the sum of all stored Bid records for the pair is
150. -/
theorem c1_all_records_sum_cex :
    (findAuction (runOps exLiveStore
        [Op.selectPlayer ⟨some 1, some 7, false⟩ 0,
         Op.placeBid ⟨some 1, some 7, some 3, some 100⟩,
         Op.selectPlayer ⟨some 1, some 7, false⟩ 0,
         Op.placeBid ⟨some 1, some 7, some 4, some 50⟩]) 1).map
      Auction.current_player_id = some (some 7) ∧
    (findAuction (runOps exLiveStore
        [Op.selectPlayer ⟨some 1, some 7, false⟩ 0,
         Op.placeBid ⟨some 1, some 7, some 3, some 100⟩,
         Op.selectPlayer ⟨some 1, some 7, false⟩ 0,
         Op.placeBid ⟨some 1, some 7, some 4, some 50⟩]) 1).map
      Auction.highest_bid = some 50 ∧
    sumAmounts (bidsFor (runOps exLiveStore
        [Op.selectPlayer ⟨some 1, some 7, false⟩ 0,
         Op.placeBid ⟨some 1, some 7, some 3, some 100⟩,
         Op.selectPlayer ⟨some 1, some 7, false⟩ 0,
         Op.placeBid ⟨some 1, some 7, some 4, some 50⟩]).bids 1 7) = 150 ∧
    (50 : Int) ≠ 150 := ⟨rfl, rfl, rfl, by decide⟩

/-- Claim C1, witness for the amended theorem: open a round on player 7 of
the live fixture and place bids of 100 (team 3) and 50 (team 4). -/
theorem c1_cumulative_eq_round_bid_sum_witness :
    exRoundStore.bids = exLiveStore.bids ∧
    ∃ a2, findAuction (runBids exRoundStore
        [⟨some 1, some 7, some 3, some 100⟩,
         ⟨some 1, some 7, some 4, some 50⟩]) 1 = some a2 ∧
      a2.current_player_id = some 7 ∧
      a2.highest_bid
        = sumAmounts (bidsFor ((runBids exRoundStore
            [⟨some 1, some 7, some 3, some 100⟩,
             ⟨some 1, some 7, some 4, some 50⟩]).bids.drop
              exRoundStore.bids.length) 1 7) :=
  c1_cumulative_eq_round_bid_sum exLiveStore ⟨some 1, some 7, false⟩ 0
    exRoundStore [Event.player_live 7 "Alice" 1000 10 0 1000] 1 7
    { exLiveAuction with current_player_id := some 7 }
    [⟨some 1, some 7, some 3, some 100⟩, ⟨some 1, some 7, some 4, some 50⟩]
    (by rfl) rfl (by rfl) rfl

/-- Claim C2: the code serializes nothing.  In the interleaving where both
`place_bid` handlers load the auction row (cumulative 0) before either
commits, bids of 100 (team 3) and 50 (team 4) leave the cached cumulative at
50 — the first update is lost — while the serialized execution of the same
two requests leaves 150; the ledger still records both rows, summing to
150. -/
theorem c2_lost_update_interleaving :
    (findAuction (applyBidAt exRoundStore
        (applyBidAt exRoundStore exRoundStore ⟨some 1, some 7, some 3, some 100⟩)
        ⟨some 1, some 7, some 4, some 50⟩) 1).map Auction.highest_bid
      = some 50 ∧
    sumAmounts (bidsFor (applyBidAt exRoundStore
        (applyBidAt exRoundStore exRoundStore ⟨some 1, some 7, some 3, some 100⟩)
        ⟨some 1, some 7, some 4, some 50⟩).bids 1 7) = 150 ∧
    (findAuction (applyBid (applyBid exRoundStore ⟨some 1, some 7, some 3, some 100⟩)
        ⟨some 1, some 7, some 4, some 50⟩) 1).map Auction.highest_bid
      = some 150 ∧
    (50 : Int) ≠ 0 + 100 + 50 := ⟨rfl, rfl, rfl, by decide⟩

/-- Claim C3, the claim as frozen is false on the code: `select_player`
performs no status check, so on the draft fixture (status draft, not live)
selecting player 7 succeeds and sets the current player instead of failing
with a NotLive error. -/
theorem c3_select_on_draft_succeeds_cex :
    auctionStatus exDraftStore 1 = some "draft" ∧
    ∃ r, select_player exDraftStore ⟨some 1, some 7, false⟩ 0 = Except.ok r ∧
      (findAuction r.1 1).map Auction.current_player_id = some (some 7) :=
  ⟨rfl, _, rfl, rfl⟩

/-- Claim C3 (amended): `select_player` never consults the auction status:
on an existing auction of any status (draft, live or closed), naming an
existing roster player succeeds, and the status is left unchanged. -/
theorem c3_select_ignores_status (s : Store) (aid pid k : Nat)
    (auction : Auction) (player : Player)
    (hz : ¬aid = 0) (hpz : ¬pid = 0)
    (hfa : findAuction s aid = some auction)
    (hfp : findPlayer s pid = some player)
    (hmem : auction.players.contains player.id = true) :
    ∃ s2 evs, select_player s ⟨some aid, some pid, false⟩ k = Except.ok (s2, evs)
      ∧ auctionStatus s2 aid = some auction.status := by
  refine ⟨_, _, select_player_ok_eq hz hpz hfa hfp hmem, ?_⟩
  have hup := findAuction_update_self { auction with current_player_id := some player.id, highest_bid := 0, highest_bid_team_id := none } hfa rfl
  unfold auctionStatus
  rw [hup]
  rfl

/-- Claim C3, witness for the amended theorem: selecting player 7 on the
draft fixture succeeds and leaves the status at draft. -/
theorem c3_select_ignores_status_witness :
    ∃ s2 evs, select_player exDraftStore ⟨some 1, some 7, false⟩ 0 = Except.ok (s2, evs)
      ∧ auctionStatus s2 1 = some "draft" :=
  c3_select_ignores_status exDraftStore 1 7 0
    { exLiveAuction with status := "draft", is_live := false } exPlayerA
    (by decide) (by decide) rfl rfl rfl

/-- Claim C4, the claim as frozen is false on the code: `close_auction` has
no already-closed guard; closing the already-closed fixture succeeds and
emits `auction_closed` again instead of failing with InvalidTransition
(no InvalidTransition error exists anywhere in the handler). -/
theorem c4_close_closed_succeeds_cex :
    auctionStatus exClosedStore 1 = some "closed" ∧
    ∃ r, close_auction exClosedStore 1 = Except.ok r ∧
      r.2 = [Event.auction_closed 1 "Season"] :=
  ⟨rfl, _, rfl, rfl⟩

/-- Claim C4 (amended): `close_auction` on any existing auction — whatever
its status, including already closed — succeeds, sets the status to closed
and emits `auction_closed`. -/
theorem c4_close_always_succeeds (s : Store) (aid : Nat) (auction : Auction)
    (hfa : findAuction s aid = some auction) :
    close_auction s aid =
      Except.ok (updateAuction s { auction with status := "closed", is_live := false },
        [Event.auction_closed auction.id auction.name]) ∧
    auctionStatus (updateAuction s { auction with status := "closed", is_live := false }) aid
      = some "closed" := by
  constructor
  · simp only [close_auction, hfa]
  · have hup := findAuction_update_self { auction with status := "closed", is_live := false } hfa rfl
    unfold auctionStatus
    rw [hup]
    rfl

/-- Claim C4, witness for the amended theorem: closing the already-closed
fixture succeeds again. -/
theorem c4_close_always_succeeds_witness :
    close_auction exClosedStore 1 =
      Except.ok (updateAuction exClosedStore { exLiveAuction with status := "closed", is_live := false },
        [Event.auction_closed 1 "Season"]) ∧
    auctionStatus (updateAuction exClosedStore { exLiveAuction with status := "closed", is_live := false }) 1
      = some "closed" :=
  c4_close_always_succeeds exClosedStore 1
    { exLiveAuction with status := "closed", is_live := false } rfl

/-- Claim C5, the claim as frozen is false on the code: `go_live_auction`
has no status guard, so invoking go-live on the closed fixture moves the
auction from closed back to live — closed is not terminal. -/
theorem c5_go_live_reopens_closed_cex :
    auctionStatus exClosedStore 1 = some "closed" ∧
    auctionStatus (runOp exClosedStore (Op.goLive 1)) 1 = some "live" :=
  ⟨rfl, rfl⟩

/-- Replacing a row that is itself closed preserves a closed status lookup. -/
theorem auctionStatus_update_closed (s : Store) (a2 : Auction) (aid : Nat)
    (hst : a2.status = "closed") (h : auctionStatus s aid = some "closed") :
    auctionStatus (updateAuction s a2) aid = some "closed" := by
  unfold auctionStatus at h ⊢
  rw [findAuction_updateAuction]
  cases hx : findAuction s aid with
  | none => rw [hx] at h; exact Option.noConfusion h
  | some x =>
    rw [hx] at h
    show some (if x.id == a2.id then a2 else x).status = some "closed"
    by_cases hbe : (x.id == a2.id) = true
    · rw [if_pos hbe, hst]
    · rw [if_neg hbe]
      exact h

/-- Claim C5 (amended): closed is preserved by every engine operation
except go-live on that auction: close, selectPlayer, placeBid and
sellPlayer (and go-live of a different auction) never move a closed auction
out of closed. -/
theorem c5_closed_preserved_without_go_live (s : Store) (op : Op) (aid : Nat)
    (hop : ∀ x, op = Op.goLive x → x ≠ aid)
    (h : auctionStatus s aid = some "closed") :
    auctionStatus (runOp s op) aid = some "closed" := by
  cases op with
  | goLive x =>
    have hx : x ≠ aid := hop x rfl
    show auctionStatus
      (match go_live_auction s x with
       | Except.ok r => r.1
       | Except.error _ => s) aid = some "closed"
    cases hf : findAuction s x with
    | none =>
      simp only [go_live_auction, hf]
      exact h
    | some a =>
      simp only [go_live_auction, hf]
      have hne : ({ a with status := "live", is_live := true, current_player_id := none, highest_bid := 0, highest_bid_team_id := none } : Auction).id ≠ aid := by
        show a.id ≠ aid
        rw [findAuction_some_id hf]
        exact hx
      unfold auctionStatus
      rw [findAuction_update_other _ hne]
      exact h
  | close x =>
    show auctionStatus
      (match close_auction s x with
       | Except.ok r => r.1
       | Except.error _ => s) aid = some "closed"
    cases hf : findAuction s x with
    | none =>
      simp only [close_auction, hf]
      exact h
    | some a =>
      simp only [close_auction, hf]
      exact auctionStatus_update_closed s _ aid rfl h
  | selectPlayer req k =>
    show auctionStatus
      (match select_player s req k with
       | Except.ok r => r.1
       | Except.error _ => s) aid = some "closed"
    cases hres : select_player s req k with
    | error e => exact h
    | ok r =>
      obtain ⟨s2, evs⟩ := r
      obtain ⟨aid2, auction, player, hra, hz, hfa, hpk, hs2, hevs⟩ :=
        select_player_ok_inv hres
      subst hs2
      refine (auctionStatus_updateAuction_eq _ _ aid ?_).trans h
      intro y hy hid
      have h3 : y.id = auction.id := hid
      have h1 : y.id = aid := findAuction_some_id hy
      have h2 : auction.id = aid2 := findAuction_some_id hfa
      have he : aid = aid2 := by rw [← h1, h3, h2]
      subst he
      have hya : y = auction := Option.some.inj (hy.symm.trans hfa)
      rw [hya]
  | placeBid req =>
    show auctionStatus (applyBid s req) aid = some "closed"
    cases hres : place_bid s req with
    | error e =>
      have happ : applyBid s req = s := by simp [applyBid, hres]
      rw [happ]
      exact h
    | ok r =>
      obtain ⟨s2, evs⟩ := r
      have happ : applyBid s req = s2 := by simp [applyBid, hres]
      rw [happ]
      obtain ⟨raid, rpid, rtid, ramt, auction, team, player, hreq, hz, hfa,
        hft, hfp, hlv, hst, hcp, hs2, hevs⟩ := place_bid_ok_inv hres
      subst hs2
      refine (auctionStatus_updateAuction_eq _ _ aid ?_).trans h
      intro y hy hid
      have h3 : y.id = auction.id := hid
      have h1 : y.id = aid := findAuction_some_id hy
      have h2 : auction.id = raid := findAuction_some_id hfa
      have he : aid = raid := by rw [← h1, h3, h2]
      subst he
      have hya : y = auction := Option.some.inj (hy.symm.trans hfa)
      rw [hya]
  | sellPlayer req =>
    show auctionStatus
      (match sell_player s req with
       | Except.ok r => r.1
       | Except.error _ => s) aid = some "closed"
    cases hres : sell_player s req with
    | error e => exact h
    | ok r =>
      obtain ⟨s2, evs⟩ := r
      obtain ⟨aid2, pid2, auction, player, sold_team_id, hra, hrp, hfa, hfp,
        hbt, hz, hs2, hevs⟩ := sell_player_ok_inv hres
      subst hs2
      refine (auctionStatus_updateAuction_eq _ _ aid ?_).trans h
      intro y hy hid
      have h3 : y.id = auction.id := hid
      have h1 : y.id = aid := findAuction_some_id hy
      have h2 : auction.id = aid2 := findAuction_some_id hfa
      have he : aid = aid2 := by rw [← h1, h3, h2]
      subst he
      have hya : y = auction := Option.some.inj (hy.symm.trans hfa)
      rw [hya]

/-- Claim C5, witness for the amended theorem: closing the closed fixture
again leaves it closed. -/
theorem c5_closed_preserved_without_go_live_witness :
    auctionStatus exClosedStore 1 = some "closed" ∧
    auctionStatus (runOp exClosedStore (Op.close 1)) 1 = some "closed" :=
  ⟨rfl, c5_closed_preserved_without_go_live exClosedStore (Op.close 1) 1
    (fun x hx => Op.noConfusion hx) rfl⟩

/-- Claim C6 (confirmed): for an existing auction and an existing player,
`sell_player` fails with NoBidPlaced exactly when the leader
(`highest_bid_team_id`) is unset; when a leader is set, it succeeds, the
broadcast sold price is exactly the player's base price plus the cached
cumulative bid at call time, and the round state is fully cleared
(current player, cumulative, leader).  The well-formedness hypothesis
`highest_bid_team_id ≠ some 0` reflects that team primary keys are nonzero;
Python treats a stored 0 like None. -/
theorem c6_sell_noBid_iff_and_final_price (s : Store) (aid pid : Nat)
    (auction : Auction) (player : Player)
    (hfa : findAuction s aid = some auction)
    (hfp : findPlayer s pid = some player)
    (hw : auction.highest_bid_team_id ≠ some 0) :
    (sell_player s ⟨some aid, some pid⟩ = Except.error ApiError.noBidPlaced
      ↔ auction.highest_bid_team_id = none) ∧
    (∀ tid, auction.highest_bid_team_id = some tid →
      ∃ s2, sell_player s ⟨some aid, some pid⟩ =
          Except.ok (s2, [Event.player_sold player.id player.name tid
            ((findTeam s tid).map Team.name)
            (player.base_price + auction.highest_bid) player.base_price
            auction.highest_bid]) ∧
        ∃ a2, findAuction s2 aid = some a2 ∧ a2.current_player_id = none ∧
          a2.highest_bid = 0 ∧ a2.highest_bid_team_id = none) := by
  cases hbt : auction.highest_bid_team_id with
  | none =>
    constructor
    · constructor
      · intro _
        rfl
      · intro _
        simp only [sell_player, hfa, hfp, hbt]
    · intro tid htid
      exact Option.noConfusion htid
  | some t =>
    have ht0 : ¬t = 0 := by
      intro h0
      exact hw (by rw [hbt, h0])
    constructor
    · constructor
      · intro hcontra
        rw [sell_player_ok_eq hfa hfp hbt ht0] at hcontra
        exact Except.noConfusion hcontra
      · intro hcontra
        exact Option.noConfusion hcontra
    · intro tid htid
      have htt : t = tid := Option.some.inj htid
      subst htt
      refine ⟨_, sell_player_ok_eq hfa hfp hbt ht0, ?_⟩
      exact ⟨_, findAuction_update_self _ hfa rfl, rfl, rfl, rfl⟩

/-- Claim C6, witness: on the live fixture with an open round on player 7,
cumulative 200 and leader team 3, selling player 7 reports 1000 + 200. -/
theorem c6_sell_noBid_iff_and_final_price_witness :
    ((sell_player exBidStore ⟨some 1, some 7⟩ = Except.error ApiError.noBidPlaced
      ↔ exBidAuction.highest_bid_team_id = none) ∧
    (∀ tid, exBidAuction.highest_bid_team_id = some tid →
      ∃ s2, sell_player exBidStore ⟨some 1, some 7⟩ =
          Except.ok (s2, [Event.player_sold exPlayerA.id exPlayerA.name tid
            ((findTeam exBidStore tid).map Team.name)
            (exPlayerA.base_price + exBidAuction.highest_bid) exPlayerA.base_price
            exBidAuction.highest_bid]) ∧
        ∃ a2, findAuction s2 1 = some a2 ∧ a2.current_player_id = none ∧
          a2.highest_bid = 0 ∧ a2.highest_bid_team_id = none)) :=
  c6_sell_noBid_iff_and_final_price exBidStore 1 7 exBidAuction exPlayerA
    rfl rfl (by decide)

/-- A draft (not live) auction that already has a round open on player 7
(reachable because `select_player` performs no status check). -/
def exDraftRoundStore : Store :=
  ⟨[{ exLiveAuction with status := "draft", is_live := false, current_player_id := some 7 }],
   [exPlayerA, exPlayerB], [exTeamA, exTeamB], []⟩

/-- Claim C7, the claim as frozen is false on the code: on a draft auction
whose round field names player 7, a `place_bid` for the mismatched player 8
fails with AuctionNotLive — the liveness check runs before the
current-player check — not with PlayerMismatch. -/
theorem c7_mismatch_error_cex :
    (findAuction exDraftRoundStore 1).map Auction.current_player_id = some (some 7) ∧
    place_bid exDraftRoundStore ⟨some 1, some 8, some 3, some 5⟩
      = Except.error ApiError.auctionNotLive ∧
    ApiError.auctionNotLive ≠ ApiError.playerMismatch :=
  ⟨rfl, rfl, by decide⟩

/-- Claim C7 (amended): a `place_bid` whose player id differs from the
auction's `current_player_id` always fails — leaving the store unchanged,
appending no Bid, broadcasting nothing — and when the auction is live and
the request passes field validation and all lookups, the error is
specifically PlayerMismatch. -/
theorem c7_mismatch_always_fails_no_side_effects (s : Store) (req : BidRequest)
    (hm : ∀ aid pid auction, req.auction_id = some aid →
      req.player_id = some pid → findAuction s aid = some auction →
      auction.current_player_id ≠ some pid) :
    (applyBid s req = s ∧ ∃ e, place_bid s req = Except.error e) ∧
    (∀ aid pid tid amt auction team player,
      req = ⟨some aid, some pid, some tid, some amt⟩ →
      ¬(aid = 0 ∨ pid = 0 ∨ tid = 0 ∨ amt = 0) →
      findAuction s aid = some auction →
      findTeam s tid = some team →
      findPlayer s pid = some player →
      auction.is_live = true → auction.status = "live" →
      place_bid s req = Except.error ApiError.playerMismatch) := by
  constructor
  · cases hres : place_bid s req with
    | error e =>
      constructor
      · simp [applyBid, hres]
      · exact ⟨e, rfl⟩
    | ok r =>
      obtain ⟨s2, evs⟩ := r
      obtain ⟨aid, pid, tid, amt, auction, team, player, hreq, hz, hfa, hft,
        hfp, hlv, hst, hcp, hs2, hevs⟩ := place_bid_ok_inv hres
      exact absurd hcp (hm aid pid auction (by rw [hreq]) (by rw [hreq]) hfa)
  · intro aid pid tid amt auction team player hreq hz hfa hft hfp hlive hst
    subst hreq
    have hlv : ¬(¬auction.is_live ∨ auction.status ≠ "live") := by
      push_neg
      exact ⟨hlive, hst⟩
    have hmis : auction.current_player_id ≠ some pid :=
      hm aid pid auction rfl rfl hfa
    simp only [place_bid, if_neg hz, hfa, hft, hfp, if_neg hlv, if_pos hmis]

/-- Claim C7, witness for the amended theorem: on the live fixture with an
open round on player 7, bidding on player 8 changes nothing and fails with
PlayerMismatch. -/
theorem c7_mismatch_always_fails_no_side_effects_witness :
    ((applyBid exRoundStore ⟨some 1, some 8, some 3, some 5⟩ = exRoundStore ∧
      ∃ e, place_bid exRoundStore ⟨some 1, some 8, some 3, some 5⟩
        = Except.error e) ∧
    (∀ aid pid tid amt auction team player,
      (⟨some 1, some 8, some 3, some 5⟩ : BidRequest)
        = ⟨some aid, some pid, some tid, some amt⟩ →
      ¬(aid = 0 ∨ pid = 0 ∨ tid = 0 ∨ amt = 0) →
      findAuction exRoundStore aid = some auction →
      findTeam exRoundStore tid = some team →
      findPlayer exRoundStore pid = some player →
      auction.is_live = true → auction.status = "live" →
      place_bid exRoundStore ⟨some 1, some 8, some 3, some 5⟩
        = Except.error ApiError.playerMismatch)) := by
  apply c7_mismatch_always_fails_no_side_effects
  intro aid pid auction h1 h2 h3
  injection h1 with e1
  injection h2 with e2
  subst e1
  subst e2
  injection h3 with e3
  subst e3
  decide

/-- Claim C8 (confirmed): every successful `select_player` — whatever the
prior round state, including an open round with recorded bids and a leader —
leaves the selected auction with `highest_bid = 0` and
`highest_bid_team_id = none` (and the chosen player as current). -/
theorem c8_select_resets_round (s : Store) (req : SelectRequest) (k : Nat)
    (s1 : Store) (evs : List Event) (aid : Nat)
    (hsel : select_player s req k = Except.ok (s1, evs))
    (haid : req.auction_id = some aid) :
    ∃ a1, findAuction s1 aid = some a1 ∧ a1.highest_bid = 0 ∧
      a1.highest_bid_team_id = none ∧ a1.current_player_id ≠ none := by
  obtain ⟨aid2, auction, player, haid2, hz, hfa, hpk, hs1, hevs⟩ :=
    select_player_ok_inv hsel
  have he : aid2 = aid := Option.some.inj (haid2.symm.trans haid)
  subst he
  subst hs1
  refine ⟨_, findAuction_update_self _ hfa rfl, rfl, rfl, ?_⟩
  intro hcontra
  exact Option.noConfusion hcontra

/-- Claim C8, witness: selecting player 8 while the previous round on
player 7 is still open with cumulative 200 and leader team 3 resets both
fields. -/
theorem c8_select_resets_round_witness :
    ∃ a1, findAuction (runOp exBidStore
        (Op.selectPlayer ⟨some 1, some 8, false⟩ 0)) 1 = some a1 ∧
      a1.highest_bid = 0 ∧ a1.highest_bid_team_id = none ∧
      a1.current_player_id ≠ none :=
  c8_select_resets_round exBidStore ⟨some 1, some 8, false⟩ 0
    (runOp exBidStore (Op.selectPlayer ⟨some 1, some 8, false⟩ 0))
    [Event.player_live 8 "Bob" 500 10 0 500] 1 (by rfl) rfl

/-- Claim C9 (confirmed): `place_bid` with `bid_amount = 0` is rejected by
the Python truthiness check `if not all([...])` as missing required fields;
any nonzero amount — negative included — passes validation, is added to the
cached cumulative (so a negative amount strictly decreases it) and makes
its team the leader. -/
theorem c9_zero_missing_nonzero_added (s : Store) (aid pid tid : Nat)
    (amt : Int) (auction : Auction) (team : Team) (player : Player)
    (hz : ¬(aid = 0 ∨ pid = 0 ∨ tid = 0))
    (hfa : findAuction s aid = some auction)
    (hft : findTeam s tid = some team)
    (hfp : findPlayer s pid = some player)
    (hlive : auction.is_live = true) (hst : auction.status = "live")
    (hcp : auction.current_player_id = some pid)
    (hamt : ¬amt = 0) :
    place_bid s ⟨some aid, some pid, some tid, some 0⟩
      = Except.error ApiError.missingRequiredFields ∧
    ∃ s2 evs, place_bid s ⟨some aid, some pid, some tid, some amt⟩
        = Except.ok (s2, evs) ∧
      ∃ a2, findAuction s2 aid = some a2 ∧
        a2.highest_bid = auction.highest_bid + amt ∧
        a2.highest_bid_team_id = some tid ∧
        (amt < 0 → a2.highest_bid < auction.highest_bid) := by
  constructor
  · simp [place_bid]
  · have hz4 : ¬(aid = 0 ∨ pid = 0 ∨ tid = 0 ∨ amt = 0) := by
      push_neg at hz ⊢
      exact ⟨hz.1, hz.2.1, hz.2.2, hamt⟩
    refine ⟨_, _, place_bid_ok_eq hz4 hfa hft hfp hlive hst hcp, ?_⟩
    refine ⟨_, findAuction_update_self _ hfa rfl, rfl, rfl, ?_⟩
    intro hneg
    show auction.highest_bid + amt < auction.highest_bid
    omega

/-- Claim C9, witness: on the live fixture with an open round on player 7
and cumulative 0, a zero bid is rejected as missing fields, and a bid of -5
by team 3 is accepted, drops the cumulative to -5 and makes team 3 the
leader. -/
theorem c9_zero_missing_nonzero_added_witness :
    (place_bid exRoundStore ⟨some 1, some 7, some 3, some 0⟩
      = Except.error ApiError.missingRequiredFields ∧
    ∃ s2 evs, place_bid exRoundStore ⟨some 1, some 7, some 3, some (-5)⟩
        = Except.ok (s2, evs) ∧
      ∃ a2, findAuction s2 1 = some a2 ∧
        a2.highest_bid = ({ exLiveAuction with current_player_id := some 7 } : Auction).highest_bid + (-5) ∧
        a2.highest_bid_team_id = some 3 ∧
        ((-5 : Int) < 0 → a2.highest_bid < ({ exLiveAuction with current_player_id := some 7 } : Auction).highest_bid)) :=
  c9_zero_missing_nonzero_added exRoundStore 1 7 3 (-5)
    { exLiveAuction with current_player_id := some 7 } exTeamA exPlayerA
    (by decide) rfl rfl rfl rfl rfl rfl (by decide)

/-- Claim C10 (confirmed): `sell_player` requires neither a live auction nor
that the given player be the current one: whenever the leader is set (and
nonzero — team keys are nonzero) and the passed player id exists, the sale
succeeds, the sold price is that passed player's base price plus the cached
cumulative, and the round state is cleared. -/
theorem c10_sell_any_player (s : Store) (aid pid tid : Nat)
    (auction : Auction) (player : Player)
    (hfa : findAuction s aid = some auction)
    (hfp : findPlayer s pid = some player)
    (hbt : auction.highest_bid_team_id = some tid) (hz : ¬tid = 0) :
    ∃ s2, sell_player s ⟨some aid, some pid⟩ =
        Except.ok (s2, [Event.player_sold player.id player.name tid
          ((findTeam s tid).map Team.name)
          (player.base_price + auction.highest_bid) player.base_price
          auction.highest_bid]) ∧
      ∃ a2, findAuction s2 aid = some a2 ∧ a2.current_player_id = none ∧
        a2.highest_bid = 0 ∧ a2.highest_bid_team_id = none :=
  ⟨_, sell_player_ok_eq hfa hfp hbt hz,
    _, findAuction_update_self _ hfa rfl, rfl, rfl, rfl⟩

/-- Claim C10, witness: on the closed fixture whose round names player 7
with cumulative 200 and leader team 3, selling player 8 — not the current
player, auction not live — succeeds at 500 + 200 and clears the round. -/
theorem c10_sell_any_player_witness :
    ∃ s2, sell_player exClosedLeadStore ⟨some 1, some 8⟩ =
        Except.ok (s2, [Event.player_sold exPlayerB.id exPlayerB.name 3
          ((findTeam exClosedLeadStore 3).map Team.name)
          (exPlayerB.base_price + exClosedLeadAuction.highest_bid)
          exPlayerB.base_price exClosedLeadAuction.highest_bid]) ∧
      ∃ a2, findAuction s2 1 = some a2 ∧ a2.current_player_id = none ∧
        a2.highest_bid = 0 ∧ a2.highest_bid_team_id = none :=
  c10_sell_any_player exClosedLeadStore 1 8 3 exClosedLeadAuction exPlayerB
    rfl rfl rfl (by decide)
